import Mathlib

/-!
Verification of the django-orchestra fragment: shallow embeddings of
`orchestra/apps/dns/zones/settings.py`, `orchestra/contrib/bills/admin.py`,
`orchestra/forms/options.py`, `orchestra/utils/mail.py` and the system-user
functional-test harness, together with theorems settling the specification
claims about them.
-/

/-! ## DNS zone default configuration (orchestra/apps/dns/zones/settings.py)

Each setting is `getattr(settings, NAME, default)`: the deployment-level
override is used verbatim when present, else the literal default. We embed
the override as an `Option`. -/

namespace DnsZones

/-- Embeds `getattr(settings, name, default)`: the caller-supplied override verbatim
when present, else the default. -/
def getattr_or {α : Type} (override : Option α) (default : α) : α :=
  override.getD default

def DNS_DEFAULT_HOSTMASTER_EMAIL (o : Option String) : String :=
  getattr_or o "suport.orchestra.org"

def DNS_DEFAULT_PRIMARY_NS (o : Option String) : String :=
  getattr_or o "ns1.orchestra.org"

def DNS_DOMAIN_SERIAL (o : Option Nat) : Nat :=
  getattr_or o 203308

def DNS_DOMAIN_SLAVE_REFRESH (o : Option String) : String :=
  getattr_or o "1d"

def DNS_DOMAIN_SLAVE_RETRY (o : Option String) : String :=
  getattr_or o "2h"

def DNS_DOMAIN_SLAVE_EXPIRATION (o : Option String) : String :=
  getattr_or o "4w"

def DNS_DOMAIN_MIN_CACHING_TIME (o : Option String) : String :=
  getattr_or o "1h"

end DnsZones

/-! ## Bill totals (orchestra/contrib/bills/admin.py)

`BillAdmin.get_queryset` annotates each bill with

    approx_total = Coalesce(Sum(
        (F('lines__subtotal') + Coalesce('lines__sublines__total', 0))
            * (1 + F('lines__tax') / 100)), 0)

which aggregates over the SQL left-join of the bill's lines with their
sublines: a line with no subline contributes one row with the subline total
coalesced to 0; a line with sublines contributes one row per subline.
Decimal arithmetic is embedded as `ℚ`. -/

namespace Bills

/-- A bill line: `subtotal`, `tax` (percentage), and the `total` of each of
its sublines. -/
structure BillLine where
  subtotal : ℚ
  tax : ℚ
  sublines : List ℚ
  deriving DecidableEq, Repr

/-- Per-line total: `(line.subtotal + Σ subline.total) * (1 + line.tax/100)`
(BillLine.compute_total). -/
def line_total (l : BillLine) : ℚ :=
  (l.subtotal + l.sublines.sum) * (1 + l.tax / 100)

/-- Modelled from the spec: `Bill.compute_total` (the bills `models.py` is not
part of this fragment; §4.5 gives the formula): the sum over the bill's lines
of `(line.subtotal + Σ subline.total) * (1 + line.tax/100)`. -/
def compute_total (lines : List BillLine) : ℚ :=
  (lines.map line_total).sum

/-- The rows the left-join `lines → sublines` produces for one line: one row
per subline, or a single row with `Coalesce('lines__sublines__total', 0) = 0`
when the line has no subline. -/
def line_join_rows (l : BillLine) : List ℚ :=
  match l.sublines with
  | [] => [0]
  | ss => ss

/-- The `approx_total` query-layer aggregate of `BillAdmin.get_queryset`:
`Coalesce(Sum((subtotal + Coalesce(subline_total, 0)) * (1 + tax/100)), 0)`
over the join rows. -/
def approx_total (lines : List BillLine) : ℚ :=
  (lines.flatMap (fun l =>
    (line_join_rows l).map (fun s => (l.subtotal + s) * (1 + l.tax / 100)))).sum

end Bills

theorem Bills.approx_total_cons (l : Bills.BillLine) (ls : List Bills.BillLine) :
    Bills.approx_total (l :: ls) =
      ((Bills.line_join_rows l).map
        (fun s => (l.subtotal + s) * (1 + l.tax / 100))).sum +
      Bills.approx_total ls := by
  simp [Bills.approx_total]

/-- C1 counterexample bill: one line with subtotal 100, tax 21 %, and two
sublines of totals 10 and 20. -/
def Bills.c1_bill : List Bills.BillLine :=
  [⟨100, 21, [10, 20]⟩]

/-- C1: on a bill with a line holding two sublines, the sortable query-layer
aggregate `approx_total` does not equal the displayed `compute_total`: the
join duplicates the line's taxed subtotal once per subline
(`compute_total = 157.3`, `approx_total = 278.3`). -/
theorem C1_counterexample :
    Bills.approx_total Bills.c1_bill ≠ Bills.compute_total Bills.c1_bill ∧
    Bills.compute_total Bills.c1_bill = 1573 / 10 ∧
    Bills.approx_total Bills.c1_bill = 2783 / 10 := by
  refine ⟨?_, ?_, ?_⟩ <;>
    norm_num [Bills.approx_total, Bills.compute_total, Bills.line_total,
      Bills.line_join_rows, Bills.c1_bill]

/-- C1 (amended): the query-layer `approx_total` equals `compute_total`
exactly on every bill in which each line has at most one subline; a line with
two or more sublines makes them differ (its taxed subtotal is counted once per
subline by the join). -/
theorem C1_amended (lines : List Bills.BillLine)
    (h : ∀ l ∈ lines, l.sublines.length ≤ 1) :
    Bills.approx_total lines = Bills.compute_total lines := by
  induction lines with
  | nil => rfl
  | cons l ls ih =>
    have hl : l.sublines.length ≤ 1 := h l (by simp)
    have hls : Bills.approx_total ls = Bills.compute_total ls :=
      ih (fun x hx => h x (by simp [hx]))
    rw [Bills.approx_total_cons, hls]
    have hline : ((Bills.line_join_rows l).map
        (fun s => (l.subtotal + s) * (1 + l.tax / 100))).sum =
        Bills.line_total l := by
      obtain ⟨st, tax, subs⟩ := l
      match subs with
      | [] => simp [Bills.line_join_rows, Bills.line_total]
      | [s] => simp [Bills.line_join_rows, Bills.line_total]
      | s₁ :: s₂ :: rest => simp at hl
    rw [hline]
    simp [Bills.compute_total]

/-- C1 amended witness: concrete application to a bill with one line having a
single subline. -/
theorem C1_amended_witness :
    (∀ l ∈ [(⟨100, 21, [10]⟩ : Bills.BillLine)], l.sublines.length ≤ 1) ∧
    Bills.approx_total [(⟨100, 21, [10]⟩ : Bills.BillLine)] =
      Bills.compute_total [(⟨100, 21, [10]⟩ : Bills.BillLine)] :=
  ⟨by decide, C1_amended [(⟨100, 21, [10]⟩ : Bills.BillLine)] (by decide)⟩

/-- C2 counterexample: the default hostmaster email literal in the source is
"suport.orchestra.org", not the spec's "support.orchestra.org". -/
theorem C2_counterexample :
    DnsZones.DNS_DEFAULT_HOSTMASTER_EMAIL none ≠ "support.orchestra.org" := by
  decide

/-- C2 (amended): with no override, the DNS zone defaults are the source
literals — hostmaster email "suport.orchestra.org" (sic, single "p"), primary
nameserver "ns1.orchestra.org", serial 203308, refresh "1d", retry "2h",
expiration "4w", negative-cache minimum "1h" — and every value is taken
verbatim from a caller-supplied override when one is present. -/
theorem C2_amended :
    DnsZones.DNS_DEFAULT_HOSTMASTER_EMAIL none = "suport.orchestra.org" ∧
    DnsZones.DNS_DEFAULT_PRIMARY_NS none = "ns1.orchestra.org" ∧
    DnsZones.DNS_DOMAIN_SERIAL none = 203308 ∧
    DnsZones.DNS_DOMAIN_SLAVE_REFRESH none = "1d" ∧
    DnsZones.DNS_DOMAIN_SLAVE_RETRY none = "2h" ∧
    DnsZones.DNS_DOMAIN_SLAVE_EXPIRATION none = "4w" ∧
    DnsZones.DNS_DOMAIN_MIN_CACHING_TIME none = "1h" ∧
    (∀ s : String, DnsZones.DNS_DEFAULT_HOSTMASTER_EMAIL (some s) = s) ∧
    (∀ s : String, DnsZones.DNS_DEFAULT_PRIMARY_NS (some s) = s) ∧
    (∀ n : Nat, DnsZones.DNS_DOMAIN_SERIAL (some n) = n) ∧
    (∀ s : String, DnsZones.DNS_DOMAIN_SLAVE_REFRESH (some s) = s) ∧
    (∀ s : String, DnsZones.DNS_DOMAIN_SLAVE_RETRY (some s) = s) ∧
    (∀ s : String, DnsZones.DNS_DOMAIN_SLAVE_EXPIRATION (some s) = s) ∧
    (∀ s : String, DnsZones.DNS_DOMAIN_MIN_CACHING_TIME (some s) = s) := by
  refine ⟨rfl, rfl, rfl, rfl, rfl, rfl, rfl, ?_, ?_, ?_, ?_, ?_, ?_, ?_⟩ <;>
    intro x <;> rfl

/-! ## Python string helpers

Structural-recursion models of the Python string operations the embedded code
uses (`str.split(sep)` with a one-character separator, and base-10 `int(s)`
with whitespace stripping, an optional sign, and underscore digit grouping),
so that concrete instances reduce in the kernel. -/

namespace PyStr

/-- Splitting a character list: Python `s.split(sep)` semantics for a
one-character separator (`"".split(sep) = [""]`, empty components kept). -/
def splitChars (sep : Char) : List Char → List (List Char)
  | [] => [[]]
  | c :: rest =>
    let r := splitChars sep rest
    if c = sep then [] :: r
    else
      match r with
      | [] => [[c]]
      | w :: ws => (c :: w) :: ws

/-- Python `s.split(sep)` for a one-character separator. -/
def split (sep : Char) (s : String) : List String :=
  (splitChars sep s.toList).map List.asString

/-- Decimal value of a digit list. -/
def digitsVal (cs : List Char) : Nat :=
  cs.foldl (fun a c => 10 * a + (c.toNat - 48)) 0

/-- Nonempty all-decimal-digit character list. -/
def isDigits (cs : List Char) : Bool :=
  !cs.isEmpty && cs.all (fun c => c.isDigit)

/-- Whitespace characters `int()` ignores around its argument: the ASCII
whitespace set stripped by Python's `str.strip()`. -/
def isPySpace (c : Char) : Bool :=
  c = ' ' || c = '\t' || c = '\n' || c = '\r' || c = '\x0b' || c = '\x0c'

/-- Strips leading and trailing `isPySpace` characters, as `int()` does. -/
def trimPy (cs : List Char) : List Char :=
  ((cs.dropWhile isPySpace).reverse.dropWhile isPySpace).reverse

/-- A digit run with Python's underscore-separator rule: groups of decimal
digits joined by single underscores — no leading, trailing, or doubled
underscore (`1_2` is accepted; `_1`, `1_`, `1__2` are not). -/
def isDigitsU (cs : List Char) : Bool :=
  (splitChars '_' cs).all isDigits

/-- Value of an underscored digit run: its digits with separators removed. -/
def digitsValU (cs : List Char) : Nat :=
  digitsVal (cs.filter (fun c => c != '_'))

/-- The core of `int()` after whitespace stripping: an optional sign followed
by an underscored decimal digit run; anything else raises `ValueError`
(`none`). -/
def pyIntCore : List Char → Option Int
  | [] => none
  | c :: rest =>
    if c = '-' then
      if isDigitsU rest then some (-(digitsValU rest : Int)) else none
    else if c = '+' then
      if isDigitsU rest then some (digitsValU rest : Int) else none
    else
      if isDigitsU (c :: rest) then some (digitsValU (c :: rest) : Int) else none

/-- Python `int(s)` in base 10: surrounding whitespace stripped, an optional
sign, then decimal digits optionally grouped by single underscores; anything
else raises `ValueError` (`none`). The model is faithful on strings of
visible ASCII characters and ASCII whitespace; real `int()` additionally
accepts non-ASCII decimal digits and a few exotic space/control code points,
which lie outside the region any theorem below instantiates. -/
def pyInt (s : String) : Option Int :=
  pyIntCore (trimPy s.toList)

/-- A visible ASCII character that can appear in no string `int()` accepts:
not a digit, a sign, an underscore, or whitespace. Any component containing
such a character makes `int()` raise. -/
def badIntChar (c : Char) : Bool :=
  33 ≤ c.toNat && c.toNat ≤ 126 && !c.isDigit && c != '+' && c != '-' &&
    c != '_'

end PyStr

/-! ## System-user delete validation harness
(orchestra/apps/systemusers/tests/functional_tests/tests.py)

`SystemUserMixin.validate_delete(username)` asserts, after a delete, that the
structured `SystemUser` record lookup raises `DoesNotExist` and that four
host-side commands each raise `CommandError` (non-zero exit). We embed the
assertion set: the flag for the record lookup and the exact command strings
expected to fail. -/

namespace SystemUsers

/-- The assertions `validate_delete` performs. -/
structure DeleteAssertions where
  /-- Embeds `assertRaises(SystemUser.DoesNotExist, SystemUser.objects.get, ...)` -/
  record_lookup_must_raise : Bool
  /-- the sshrun command lines each asserted to raise `CommandError` -/
  failing_commands : List String
  deriving DecidableEq, Repr

/-- Embeds `SystemUserMixin.validate_delete`: the structured record must be gone, and
the host-side identity lookup plus three file greps must all fail. -/
def validate_delete (username : String) : DeleteAssertions :=
  { record_lookup_must_raise := true,
    failing_commands :=
      [ "id " ++ username,
        "grep \"^" ++ username ++ ":\" /etc/groups",
        "grep \"^" ++ username ++ ":\" /etc/passwd",
        "grep \"^" ++ username ++ ":\" /etc/shadow" ] }

/-- The file path targeted by each grep command of `validate_delete` (its last
space-separated token). -/
def grepped_paths (username : String) : List String :=
  ((validate_delete username).failing_commands.drop 1).map
    (fun c => (PyStr.split ' ' c).getLastD "")

end SystemUsers

/-- C3: the post-delete verification does assert record absence and a failing
identity lookup, but the grepped files are `/etc/groups`, `/etc/passwd`,
`/etc/shadow` — not the claim's (and the system's) `/etc/group`: the group
check targets a non-existent path, so it is vacuous. -/
theorem C3_divergence_eval :
    (SystemUsers.validate_delete "alice").record_lookup_must_raise = true ∧
    (SystemUsers.validate_delete "alice").failing_commands.head? =
      some "id alice" ∧
    SystemUsers.grepped_paths "alice" =
      ["/etc/groups", "/etc/passwd", "/etc/shadow"] ∧
    SystemUsers.grepped_paths "alice" ≠
      ["/etc/group", "/etc/passwd", "/etc/shadow"] := by
  refine ⟨rfl, rfl, ?_, ?_⟩ <;> decide

/-! ## Plugin data form (orchestra/forms/options.py, PluginDataForm)

The record carries a plugin attribute and a schemaless data blob, embedded as
an association list. `__init__` (when editing) seeds each declared field's
initial value with `instance.data.get(field, field.initial)`; `save` writes
the plugin name onto the record and replaces the blob with exactly the
declared fields' cleaned values. -/

namespace PluginForms

/-- A plugin-backed record: its plugin-identifier attribute and its data
blob. -/
structure PluginInstance (V : Type) where
  plugin_attr : String
  data : List (String × V)
  deriving DecidableEq, Repr

/-- A concrete plugin's form: the declared fields (name and the field's own
initial value) and the owning plugin's name. -/
structure PluginDataForm (V : Type) where
  declared_fields : List (String × Option V)
  plugin_name : String
  deriving DecidableEq, Repr

/-- Embeds the `PluginDataForm.__init__` seeding on edit:
`self.fields[field].initial = instance.data.get(field, self.fields[field].initial)`
for each declared field. -/
def seeded_initials {V : Type} (form : PluginDataForm V)
    (inst : PluginInstance V) : List (String × Option V) :=
  form.declared_fields.map (fun fd =>
    (fd.1, match inst.data.lookup fd.1 with
           | some v => some v
           | none => fd.2))

/-- Embeds `PluginDataForm.save`: sets the plugin attribute to the plugin's name and
replaces the instance's data blob with
`{field: cleaned_data[field] for field in declared_fields}`. -/
def form_save {V : Type} (form : PluginDataForm V) (inst : PluginInstance V)
    (cleaned_data : String → V) : PluginInstance V :=
  { inst with
    plugin_attr := form.plugin_name,
    data := form.declared_fields.map (fun fd => (fd.1, cleaned_data fd.1)) }

end PluginForms

theorem PluginForms.lookup_map_value {V : Type} (cleaned : String → V)
    (l : List (String × Option V)) (f : String) (hf : f ∈ l.map Prod.fst) :
    (l.map (fun fd => (fd.1, cleaned fd.1))).lookup f = some (cleaned f) := by
  induction l with
  | nil => simp at hf
  | cons fd rest ih =>
    rcases eq_or_ne f fd.1 with heq | hne
    · subst heq
      simp [List.lookup]
    · have hf' : f ∈ rest.map Prod.fst := by
        simpa [hne] using hf
      have hbeq : (f == fd.1) = false := beq_eq_false_iff_ne.mpr hne
      simp [List.lookup, hbeq, ih hf']

/-- C4: saving a record through a plugin's form writes the plugin's name onto
the record, makes the persisted blob's key list exactly the declared field
list, and a subsequent edit form seeds every declared field's initial value
with the just-submitted value; on an arbitrary record, a declared field whose
key is absent from the blob is seeded with the field's own initial value. -/
theorem C4_round_trip {V : Type} (form : PluginForms.PluginDataForm V)
    (inst inst₂ : PluginForms.PluginInstance V) (cleaned : String → V)
    (f : String) (d : Option V)
    (hfd : (f, d) ∈ form.declared_fields)
    (habs : inst₂.data.lookup f = none) :
    (PluginForms.form_save form inst cleaned).plugin_attr = form.plugin_name ∧
    (PluginForms.form_save form inst cleaned).data.map Prod.fst =
      form.declared_fields.map Prod.fst ∧
    PluginForms.seeded_initials form (PluginForms.form_save form inst cleaned) =
      form.declared_fields.map (fun fd => (fd.1, some (cleaned fd.1))) ∧
    (f, d) ∈ PluginForms.seeded_initials form inst₂ := by
  refine ⟨rfl, by simp [PluginForms.form_save], ?_, ?_⟩
  · unfold PluginForms.seeded_initials PluginForms.form_save
    refine List.map_congr_left (fun fd hfd' => ?_)
    have hmem : fd.1 ∈ form.declared_fields.map Prod.fst :=
      List.mem_map_of_mem Prod.fst hfd'
    rw [PluginForms.lookup_map_value cleaned form.declared_fields fd.1 hmem]
  · unfold PluginForms.seeded_initials
    refine List.mem_map.mpr ⟨(f, d), hfd, ?_⟩
    rw [habs]

/-- C4 witness: a concrete two-field form round-trip. -/
theorem C4_witness :
    ((("color", some "red") ∈
        ([("color", some "red"), ("size", none)] :
          List (String × Option String)))) ∧
    (([("size", "XL")] : List (String × String)).lookup "color" = none) ∧
    PluginForms.seeded_initials
        (⟨[("color", some "red"), ("size", none)], "demo"⟩ :
          PluginForms.PluginDataForm String)
        (PluginForms.form_save
          (⟨[("color", some "red"), ("size", none)], "demo"⟩ :
            PluginForms.PluginDataForm String)
          ⟨"old", [("junk", "x")]⟩ (fun f => f ++ "!")) =
      [("color", some "color!"), ("size", some "size!")] ∧
    ("color", some "red") ∈
      PluginForms.seeded_initials
        (⟨[("color", some "red"), ("size", none)], "demo"⟩ :
          PluginForms.PluginDataForm String)
        ⟨"other", [("size", "XL")]⟩ := by
  have h := C4_round_trip
    (⟨[("color", some "red"), ("size", none)], "demo"⟩ :
      PluginForms.PluginDataForm String)
    ⟨"old", [("junk", "x")]⟩ ⟨"other", [("size", "XL")]⟩ (fun f => f ++ "!")
    "color" (some "red") (by decide) (by decide)
  exact ⟨by decide, by decide, by simpa using h.2.2.1, h.2.2.2⟩

/-! ## Credential forms (orchestra/forms/options.py)

`UserChangeForm.clean_password` returns `self.initial["password"]` regardless
of the submitted data. `UserCreationForm.clean_password2` raises a
"password mismatch" validation error when both entries are truthy and differ,
else returns the second entry; a validation error makes the form invalid, so
`save` (which stores the user with `set_password(password1)`) is not run. -/

namespace CredentialForms

/-- The state of the account-change form relevant to the password field: the
stored initial value and whatever was submitted. -/
structure UserChangeForm (V : Type) where
  initial_password : V
  submitted_password : V
  deriving DecidableEq, Repr

/-- Embeds `UserChangeForm.clean_password`: regardless of what the user provides,
return the initial value. -/
def clean_password {V : Type} (form : UserChangeForm V) : V :=
  form.initial_password

/-- The creation form's cleaned data relevant to `clean_password2`:
`cleaned_data.get("password1")` and `cleaned_data.get("password2")`. -/
structure CreationCleaned where
  password1 : Option String
  password2 : Option String
  deriving DecidableEq, Repr

/-- Python truthiness of `cleaned_data.get(...)`: `None` and the empty string
are falsy. -/
def truthy : Option String → Bool
  | none => false
  | some s => s != ""

/-- The `password_mismatch` error message of `UserCreationForm`. -/
def mismatch_message : String := "The two password fields didn't match."

/-- Embeds `UserCreationForm.clean_password2`. -/
def clean_password2 (cd : CreationCleaned) : Except String (Option String) :=
  if truthy cd.password1 && truthy cd.password2 &&
      (cd.password1 != cd.password2) then
    Except.error mismatch_message
  else
    Except.ok cd.password2

/-- Modelled from the spec: the form machinery around
`UserCreationForm.save` — a submission whose cleaning raises a validation
error leaves the form invalid and creates no user record; a clean submission
creates a user whose password is set (hashed) from the cleaned `password1`. -/
def creation_form_user (cd : CreationCleaned) : Option (Option String) :=
  match clean_password2 cd with
  | Except.error _ => none
  | Except.ok _ => some cd.password1

end CredentialForms

/-- C5: cleaning the password field of the account-change form returns the
form's initial stored password unchanged, for every submitted value — the
form never alters the stored password. -/
theorem C5_change_form_keeps_password {V : Type} (i s s' : V) :
    CredentialForms.clean_password ⟨i, s⟩ = i ∧
    CredentialForms.clean_password ⟨i, s⟩ =
      CredentialForms.clean_password ⟨i, s'⟩ :=
  ⟨rfl, rfl⟩

/-- C7: on a creation-form submission with both password entries provided
(non-empty), differing entries make cleaning fail with the password-mismatch
validation error and no user is created; equal entries clean to the submitted
confirmation value. -/
theorem C7_password_confirmation (p1 p2 : String) (h1 : p1 ≠ "")
    (h2 : p2 ≠ "") :
    (p1 ≠ p2 →
      CredentialForms.clean_password2 ⟨some p1, some p2⟩ =
        Except.error CredentialForms.mismatch_message ∧
      CredentialForms.creation_form_user ⟨some p1, some p2⟩ = none) ∧
    (p1 = p2 →
      CredentialForms.clean_password2 ⟨some p1, some p2⟩ =
        Except.ok (some p2)) := by
  constructor
  · intro hne
    have hcl : CredentialForms.clean_password2 ⟨some p1, some p2⟩ =
        Except.error CredentialForms.mismatch_message := by
      simp [CredentialForms.clean_password2, CredentialForms.truthy, h1, h2, hne]
    exact ⟨hcl, by simp [CredentialForms.creation_form_user, hcl]⟩
  · intro heq
    subst heq
    simp [CredentialForms.clean_password2]

/-- C7 witness: concrete mismatching and matching submissions. -/
theorem C7_witness :
    (("alpha" : String) ≠ "" ∧ ("beta" : String) ≠ "" ∧
      ("alpha" : String) ≠ "beta") ∧
    CredentialForms.clean_password2 ⟨some "alpha", some "beta"⟩ =
      Except.error CredentialForms.mismatch_message ∧
    CredentialForms.creation_form_user ⟨some "alpha", some "beta"⟩ = none ∧
    CredentialForms.clean_password2 ⟨some "alpha", some "alpha"⟩ =
      Except.ok (some "alpha") := by
  have hmm := (C7_password_confirmation "alpha" "beta" (by decide)
    (by decide)).1 (by decide)
  have heq := (C7_password_confirmation "alpha" "alpha" (by decide)
    (by decide)).2 rfl
  exact ⟨⟨by decide, by decide, by decide⟩, hmm.1, hmm.2, heq⟩

/-! ## Templated notification mailer (orchestra/utils/mail.py)

`send_email_template` normalizes a lone recipient to a one-element list,
injects a `site` value into the context when absent, renders the subject and
plain body from the same template under distinct flags and strips them, and
attaches a `text/html` alternative only when an HTML template is supplied.
Templates are embedded as rendering functions; `urlparse` of the configured
site URL is abstracted by passing the derived site value directly. -/

namespace Mailer

/-- The `site` context value: configured name plus scheme/domain parsed from
the configured site URL. -/
structure SiteInfo where
  name : String
  scheme : String
  domain : String
  deriving DecidableEq, Repr

/-- The rendering context, as far as the mailer inspects it: whether a `site`
value is present. -/
structure MailContext where
  site : Option SiteInfo
  deriving DecidableEq, Repr

/-- The flag dictionary merged into a rendering pass: `{'subject': True}` or
`{'message': True}`. -/
structure RenderFlags where
  subject : Bool
  message : Bool
  deriving DecidableEq, Repr

/-- An outgoing `EmailMultiAlternatives` message. -/
structure EmailMessage where
  subject : String
  body : String
  email_from : Option String
  to_list : List String
  attachments : List String
  alternatives : List (String × String)
  deriving DecidableEq, Repr

/-- The context after the mailer's `site` injection: unchanged when the caller
defined `site`, else with the deployment-derived site value. -/
def with_site (default_site : SiteInfo) (context : MailContext) : MailContext :=
  if context.site.isSome then context else { context with site := some default_site }

/-- Embeds `send_email_template` as a message builder. A template is a function from
the flag dictionary and the context to the rendered string. -/
def send_email_template (default_site : SiteInfo)
    (template : RenderFlags → MailContext → String) (context : MailContext)
    (to_arg : String ⊕ List String) (email_from : Option String)
    (html : Option (RenderFlags → MailContext → String))
    (attachments : List String) : EmailMessage :=
  let to_list := match to_arg with
    | Sum.inl s => [s]
    | Sum.inr l => l
  let ctx := with_site default_site context
  let subject := (template ⟨true, false⟩ ctx).trim
  let message := (template ⟨false, true⟩ ctx).trim
  let msg : EmailMessage :=
    ⟨subject, message, email_from, to_list, attachments, []⟩
  match html with
  | some h => { msg with alternatives := [(h ⟨false, true⟩ ctx, "text/html")] }
  | none => msg

end Mailer

/-- C9: the composed message's subject is exactly the stripped rendering of
the subject pass, and the message carries a `text/html` alternative part iff
an HTML template argument is supplied (exactly the rendered HTML body when
so). -/
theorem C9_mailer (default_site : Mailer.SiteInfo)
    (template : Mailer.RenderFlags → Mailer.MailContext → String)
    (context : Mailer.MailContext) (to_arg : String ⊕ List String)
    (email_from : Option String)
    (html : Option (Mailer.RenderFlags → Mailer.MailContext → String))
    (attachments : List String) :
    (Mailer.send_email_template default_site template context to_arg email_from
        html attachments).subject =
      (template ⟨true, false⟩ (Mailer.with_site default_site context)).trim ∧
    (Mailer.send_email_template default_site template context to_arg email_from
        html attachments).alternatives =
      (html.map (fun h =>
        [(h ⟨false, true⟩ (Mailer.with_site default_site context),
          "text/html")])).getD [] := by
  cases html <;> exact ⟨rfl, rfl⟩

/-! ## Bills admin views (orchestra/contrib/bills/admin.py)

`BillAdmin.formfield_for_dbfield` restricts the `amend_of` form field's
candidate queryset to closed bills. `BillLineManagerAdmin.changelist_view`
pops the `ids` query parameter: a missing parameter yields an error notice
and a redirect back; a present value is split on commas and each component
passed through `int(...)` (an unhandled `ValueError`, embedded as `raise`, on
any non-integer component, including the empty value), after which the
manager is opened scoped to those bill ids, with a warning when a selected
bill is not open. `BillLineManagerAdmin.get_queryset` filters the line
queryset by the selected bill ids when that selection is non-empty. -/

namespace BillsAdmin

/-- A bill, as far as these views inspect it. -/
structure Bill where
  id : Int
  number : String
  is_open : Bool
  deriving DecidableEq, Repr

/-- A bill line row of the manager's queryset: the id of its parent bill. -/
structure BillLineRow where
  bill_id : Int
  deriving DecidableEq, Repr

/-- The queryset part of `BillAdmin.formfield_for_dbfield`: for the `amend_of`
field the candidate queryset is filtered with `is_open=False`; other fields
keep their queryset. -/
def formfield_queryset (field_name : String) (qs : List Bill) : List Bill :=
  if field_name = "amend_of" then qs.filter (fun b => !b.is_open) else qs

/-- Embeds `list(map(int, bill_ids.split(',')))`: `none` embeds the `ValueError`
raised when any component fails integer conversion. -/
def parse_ids (s : String) : Option (List Int) :=
  (PyStr.split ',' s).mapM PyStr.pyInt

/-- Embeds `Bill.objects.get(pk=i)` over the embedded table (`none` embeds
`DoesNotExist`). -/
def bill_get (db : List Bill) (i : Int) : Option Bill :=
  db.find? (fun b => b.id == i)

/-- The observable outcome of `BillLineManagerAdmin.changelist_view`. -/
inductive ViewResponse where
  /-- Embeds `messages.error(...)` followed by `redirect('..')` -/
  | redirectBack (error_message : String)
  /-- an unhandled exception propagates -/
  | raise
  /-- the manager changelist opens, scoped to `bill_ids` -/
  | changelist (bill_ids : List Int) (warnings : List String) (title : String)
  deriving DecidableEq, Repr

/-- The tail of `BillLineManagerAdmin.changelist_view` after the `ids`
parameter has been parsed: the single-bill branch fetches the bill (its title
links the bill's number, warning when it is not open); the multi-bill branch
warns when any selected bill is closed. -/
def changelist_of_ids (db : List Bill) (bill_ids : List Int) : ViewResponse :=
  if bill_ids.length = 1 then
    match bill_get db (bill_ids.headD 0) with
    | none => ViewResponse.raise
    | some bill =>
      ViewResponse.changelist bill_ids
        (if !bill.is_open then ["Bill not in open state."] else [])
        ("Manage " ++ bill.number ++ " bill lines.")
  else
    ViewResponse.changelist bill_ids
      (if db.any (fun b => bill_ids.contains b.id && !b.is_open) then
        ["Not all bills are in open state."]
      else [])
      "Manage bill lines of multiple bills."

/-- Embeds `BillLineManagerAdmin.changelist_view`, over the bill table `db` and the
popped `ids` query parameter (`none` when absent; note `request.GET.copy()
.pop('ids', None)` returns the value list, which is truthy whenever the
parameter is present, even with an empty value). -/
def changelist_view (db : List Bill) (ids_param : Option String) : ViewResponse :=
  match ids_param with
  | none => ViewResponse.redirectBack "No bills selected."
  | some s =>
    match parse_ids s with
    | none => ViewResponse.raise
    | some bill_ids => changelist_of_ids db bill_ids

/-- Embeds `BillLineManagerAdmin.get_queryset`: when the bill-id selection is
non-empty, the line queryset is filtered to those bills. -/
def manager_get_queryset (bill_ids : List Int) (qset : List BillLineRow) :
    List BillLineRow :=
  if !bill_ids.isEmpty then qset.filter (fun l => bill_ids.contains l.bill_id)
  else qset

end BillsAdmin

/-- C6: every bill in the candidate queryset offered by the `amend_of` form
field is closed (`is_open = false`); an open bill is never offered. -/
theorem C6_amend_of_only_closed (qs : List BillsAdmin.Bill)
    (b : BillsAdmin.Bill)
    (hb : b ∈ BillsAdmin.formfield_queryset "amend_of" qs) :
    b.is_open = false := by
  have hmem : b ∈ qs.filter (fun b => !b.is_open) := by
    simpa [BillsAdmin.formfield_queryset] using hb
  simpa using (List.mem_filter.mp hmem).2

/-- C6 witness: a closed bill surviving the `amend_of` filter alongside an
open one. -/
theorem C6_witness :
    (⟨2, "B", false⟩ : BillsAdmin.Bill) ∈
      BillsAdmin.formfield_queryset "amend_of"
        [⟨1, "A", true⟩, ⟨2, "B", false⟩] ∧
    BillsAdmin.Bill.is_open ⟨2, "B", false⟩ = false :=
  ⟨by decide,
    C6_amend_of_only_closed [⟨1, "A", true⟩, ⟨2, "B", false⟩] ⟨2, "B", false⟩
      (by decide)⟩

theorem PyStr.all_digits_of_isDigits (cs : List Char)
    (h : PyStr.isDigits cs = true) (c : Char) (hc : c ∈ cs) :
    c.isDigit = true := by
  unfold PyStr.isDigits at h
  simp only [Bool.and_eq_true, List.all_eq_true] at h
  exact h.2 c hc

theorem PyStr.not_pySpace_of_digit (c : Char) (h : c.isDigit = true) :
    PyStr.isPySpace c = false := by
  cases hps : PyStr.isPySpace c with
  | false => rfl
  | true =>
    exfalso
    have hor : c = ' ' ∨ c = '\t' ∨ c = '\n' ∨ c = '\r' ∨
        c = '\x0b' ∨ c = '\x0c' := by
      simpa [PyStr.isPySpace, or_assoc] using hps
    rcases hor with h1 | h1 | h1 | h1 | h1 | h1 <;>
      (rw [h1] at h; exact absurd h (by decide))

theorem PyStr.dropWhile_pySpace_of_digits (cs : List Char)
    (h : PyStr.isDigits cs = true) : cs.dropWhile PyStr.isPySpace = cs := by
  cases cs with
  | nil => rfl
  | cons c rest =>
    have hcd : c.isDigit = true :=
      PyStr.all_digits_of_isDigits _ h c (by simp)
    rw [List.dropWhile_cons, PyStr.not_pySpace_of_digit c hcd]
    simp

theorem PyStr.trimPy_of_digits (cs : List Char)
    (h : PyStr.isDigits cs = true) : PyStr.trimPy cs = cs := by
  have hrev : PyStr.isDigits cs.reverse = true := by
    unfold PyStr.isDigits at h ⊢
    simp only [Bool.and_eq_true, List.all_eq_true] at h ⊢
    refine ⟨by simpa using h.1, ?_⟩
    intro c hc
    exact h.2 c (by simpa using hc)
  unfold PyStr.trimPy
  rw [PyStr.dropWhile_pySpace_of_digits cs h,
    PyStr.dropWhile_pySpace_of_digits cs.reverse hrev, List.reverse_reverse]

theorem PyStr.splitChars_of_no_sep (sep : Char) (cs : List Char)
    (h : ∀ c ∈ cs, c ≠ sep) : PyStr.splitChars sep cs = [cs] := by
  induction cs with
  | nil => rfl
  | cons d rest ih =>
    have hd : d ≠ sep := h d (by simp)
    have hr := ih (fun x hx => h x (by simp [hx]))
    simp only [PyStr.splitChars, hr]
    rw [if_neg hd]

theorem PyStr.isDigitsU_of_digits (cs : List Char)
    (h : PyStr.isDigits cs = true) : PyStr.isDigitsU cs = true := by
  have hno : ∀ c ∈ cs, c ≠ '_' := by
    intro c hc he
    have hcd := PyStr.all_digits_of_isDigits cs h c hc
    rw [he] at hcd
    exact absurd hcd (by decide)
  unfold PyStr.isDigitsU
  rw [PyStr.splitChars_of_no_sep '_' cs hno]
  simp [h]

theorem PyStr.digitsValU_of_digits (cs : List Char)
    (h : PyStr.isDigits cs = true) : PyStr.digitsValU cs = PyStr.digitsVal cs := by
  unfold PyStr.digitsValU
  have hfil : cs.filter (fun c => c != '_') = cs := by
    apply List.filter_eq_self.mpr
    intro c hc
    have hcd := PyStr.all_digits_of_isDigits cs h c hc
    have hne : c ≠ '_' := by
      intro he
      rw [he] at hcd
      exact absurd hcd (by decide)
    simpa using hne
  rw [hfil]

theorem PyStr.pyInt_of_digits (p : String)
    (h : PyStr.isDigits p.toList = true) :
    PyStr.pyInt p = some ((PyStr.digitsVal p.toList : Nat) : Int) := by
  unfold PyStr.pyInt
  rw [PyStr.trimPy_of_digits p.toList h]
  cases hl : p.toList with
  | nil =>
    rw [hl] at h
    simp [PyStr.isDigits] at h
  | cons c rest =>
    rw [hl] at h
    have hcd : c.isDigit = true :=
      PyStr.all_digits_of_isDigits _ h c (by simp)
    have h1 : c ≠ '-' := by
      intro hc
      rw [hc] at hcd
      exact absurd hcd (by decide)
    have h2 : c ≠ '+' := by
      intro hc
      rw [hc] at hcd
      exact absurd hcd (by decide)
    simp [PyStr.pyIntCore, h1, h2, PyStr.isDigitsU_of_digits _ h,
      PyStr.digitsValU_of_digits _ h]

theorem PyStr.splitChars_ne_nil (sep : Char) (cs : List Char) :
    PyStr.splitChars sep cs ≠ [] := by
  cases cs with
  | nil => simp [PyStr.splitChars]
  | cons c rest =>
    simp only [PyStr.splitChars]
    by_cases hc : c = sep
    · simp [hc]
    · rw [if_neg hc]
      cases PyStr.splitChars sep rest <;> simp

theorem PyStr.mem_group_of_mem (sep c : Char) (cs : List Char)
    (hc : c ∈ cs) (hne : c ≠ sep) :
    ∃ g ∈ PyStr.splitChars sep cs, c ∈ g := by
  induction cs with
  | nil => simp at hc
  | cons d rest ih =>
    simp only [PyStr.splitChars]
    by_cases hd : d = sep
    · rw [if_pos hd]
      rcases List.mem_cons.mp hc with hcd | hcr
      · rw [hcd] at hne
        exact absurd hd hne
      · obtain ⟨g, hg, hcg⟩ := ih hcr
        exact ⟨g, List.mem_cons_of_mem _ hg, hcg⟩
    · rw [if_neg hd]
      cases hr : PyStr.splitChars sep rest with
      | nil => exact absurd hr (PyStr.splitChars_ne_nil sep rest)
      | cons w ws =>
        rcases List.mem_cons.mp hc with hcd | hcr
        · exact ⟨d :: w, by simp, by simp [hcd]⟩
        · obtain ⟨g, hg, hcg⟩ := ih hcr
          rw [hr] at hg
          rcases List.mem_cons.mp hg with hgw | hgs
          · exact ⟨d :: w, by simp, by
              rw [hgw] at hcg
              exact List.mem_cons_of_mem _ hcg⟩
          · exact ⟨g, List.mem_cons_of_mem _ hgs, hcg⟩

theorem PyStr.isDigitsU_eq_false (cs : List Char) (c : Char) (hc : c ∈ cs)
    (hd : c.isDigit = false) (hu : c ≠ '_') :
    PyStr.isDigitsU cs = false := by
  obtain ⟨g, hg, hcg⟩ := PyStr.mem_group_of_mem '_' c cs hc hu
  have hgd : PyStr.isDigits g = false := by
    have hall : g.all (fun x => x.isDigit) = false :=
      List.all_eq_false.mpr ⟨c, hcg, by simp [hd]⟩
    simp [PyStr.isDigits, hall]
  unfold PyStr.isDigitsU
  exact List.all_eq_false.mpr ⟨g, hg, by simp [hgd]⟩

theorem PyStr.mem_dropWhile_of_mem (p : Char → Bool) (c : Char)
    (cs : List Char) (hc : c ∈ cs) (hpc : p c = false) :
    c ∈ cs.dropWhile p := by
  induction cs with
  | nil => simp at hc
  | cons d rest ih =>
    rw [List.dropWhile_cons]
    by_cases hd : p d = true
    · rw [hd]
      simp only [if_pos rfl]
      rcases List.mem_cons.mp hc with hcd | hcr
      · rw [hcd] at hpc
        rw [hpc] at hd
        exact absurd hd (by decide)
      · exact ih hcr
    · rw [if_neg hd]
      exact hc

theorem PyStr.mem_trimPy_of_mem (c : Char) (cs : List Char) (hc : c ∈ cs)
    (hpc : PyStr.isPySpace c = false) : c ∈ PyStr.trimPy cs := by
  unfold PyStr.trimPy
  have h1 := PyStr.mem_dropWhile_of_mem PyStr.isPySpace c cs hc hpc
  have h2 : c ∈ (cs.dropWhile PyStr.isPySpace).reverse := by simpa using h1
  have h3 := PyStr.mem_dropWhile_of_mem PyStr.isPySpace c _ h2 hpc
  simpa using h3

theorem PyStr.pyIntCore_eq_none (cs : List Char) (c : Char) (hc : c ∈ cs)
    (hdig : c.isDigit = false) (hplus : c ≠ '+') (hminus : c ≠ '-')
    (hund : c ≠ '_') : PyStr.pyIntCore cs = none := by
  cases cs with
  | nil => rfl
  | cons d rest =>
    simp only [PyStr.pyIntCore]
    by_cases hdm : d = '-'
    · rw [if_pos hdm]
      have hcr : c ∈ rest := by
        rcases List.mem_cons.mp hc with h | h
        · rw [h] at hminus
          exact absurd hdm hminus
        · exact h
      rw [PyStr.isDigitsU_eq_false rest c hcr hdig hund]
      simp
    · rw [if_neg hdm]
      by_cases hdp : d = '+'
      · rw [if_pos hdp]
        have hcr : c ∈ rest := by
          rcases List.mem_cons.mp hc with h | h
          · rw [h] at hplus
            exact absurd hdp hplus
          · exact h
        rw [PyStr.isDigitsU_eq_false rest c hcr hdig hund]
        simp
      · rw [if_neg hdp]
        rw [PyStr.isDigitsU_eq_false (d :: rest) c hc hdig hund]
        simp

theorem PyStr.pyInt_eq_none_of_badChar (s : String) (c : Char)
    (hc : c ∈ s.toList) (hbad : PyStr.badIntChar c = true) :
    PyStr.pyInt s = none := by
  simp only [PyStr.badIntChar, Bool.and_eq_true, bne_iff_ne, ne_eq,
    Bool.not_eq_true', decide_eq_true_eq] at hbad
  obtain ⟨⟨⟨⟨⟨hlo, hhi⟩, hdig⟩, hplus⟩, hminus⟩, hund⟩ := hbad
  have hsp : PyStr.isPySpace c = false := by
    cases hps : PyStr.isPySpace c with
    | false => rfl
    | true =>
      exfalso
      have hor : c = ' ' ∨ c = '\t' ∨ c = '\n' ∨ c = '\r' ∨
          c = '\x0b' ∨ c = '\x0c' := by
        simpa [PyStr.isPySpace, or_assoc] using hps
      rcases hor with h1 | h1 | h1 | h1 | h1 | h1 <;>
        (rw [h1] at hlo; exact absurd hlo (by decide))
  unfold PyStr.pyInt
  exact PyStr.pyIntCore_eq_none _ c
    (PyStr.mem_trimPy_of_mem c s.toList hc hsp) hdig hplus hminus hund

theorem PyStr.mapM_eq_some_map {α β : Type} (f : α → Option β) (g : α → β)
    (l : List α) (h : ∀ a ∈ l, f a = some (g a)) :
    l.mapM f = some (l.map g) := by
  induction l with
  | nil => rfl
  | cons a as ih =>
    have ha := h a (by simp)
    have has := ih (fun x hx => h x (by simp [hx]))
    rw [List.mapM_cons, ha, has]
    rfl

theorem PyStr.mapM_eq_none {α β : Type} (f : α → Option β) (l : List α)
    (a : α) (ha : a ∈ l) (hfa : f a = none) : l.mapM f = none := by
  induction l with
  | nil => simp at ha
  | cons b bs ih =>
    rcases List.mem_cons.mp ha with hb | hmem
    · subst hb
      rw [List.mapM_cons, hfa]
      rfl
    · rw [List.mapM_cons]
      cases hfb : f b with
      | none => rfl
      | some v =>
        rw [ih hmem]
        rfl

/-- C8 counterexample: an `ids` query parameter present with an *empty* value
is not handled by the friendly notice — the popped value list is truthy, so
the view runs `int('')` and raises an unhandled `ValueError` instead of
redirecting back. -/
theorem C8_counterexample :
    BillsAdmin.changelist_view [] (some "") = BillsAdmin.ViewResponse.raise ∧
    BillsAdmin.changelist_view [] (some "") ≠
      BillsAdmin.ViewResponse.redirectBack "No bills selected." := by
  exact ⟨by decide, by decide⟩

/-- C8 (amended): a *missing* `ids` selection redirects back with the "No
bills selected." error notice (a present-but-empty value instead raises an
unhandled integer-conversion error); for every present, well-formed selection
(each selected id resolving to a bill, bill ids unique) the view opens the
manager scoped to exactly the parsed ids — with a warning when any selected
bill is not open — and the manager queryset keeps exactly the lines of the
selected bills. -/
theorem C8_amended (db : List BillsAdmin.Bill)
    (lines : List BillsAdmin.BillLineRow) (s : String) (ids : List Int)
    (hparse : BillsAdmin.parse_ids s = some ids) (hne : ids ≠ [])
    (hfound : ∀ i ∈ ids, (BillsAdmin.bill_get db i).isSome)
    (hnodup : (db.map BillsAdmin.Bill.id).Nodup) :
    BillsAdmin.changelist_view db none =
      BillsAdmin.ViewResponse.redirectBack "No bills selected." ∧
    (∃ w t, BillsAdmin.changelist_view db (some s) =
        BillsAdmin.ViewResponse.changelist ids w t ∧
      ((∃ b ∈ db, b.id ∈ ids ∧ b.is_open = false) → w ≠ [])) ∧
    BillsAdmin.manager_get_queryset ids lines =
      lines.filter (fun l => ids.contains l.bill_id) := by
  refine ⟨rfl, ?_, ?_⟩
  · have hview : BillsAdmin.changelist_view db (some s) =
        BillsAdmin.changelist_of_ids db ids := by
      simp only [BillsAdmin.changelist_view, hparse]
    rw [hview]
    match ids, hne, hfound with
    | [i], _, hfound =>
      obtain ⟨b, hb⟩ := Option.isSome_iff_exists.mp (hfound i (by simp))
      unfold BillsAdmin.changelist_of_ids
      rw [if_pos (show ([i] : List Int).length = 1 by simp),
        List.headD_cons, hb]
      refine ⟨_, _, rfl, ?_⟩
      rintro ⟨b', hb'db, hb'id, hb'open⟩
      have hb'i : b'.id = i := by simpa using hb'id
      have hbmem : b ∈ db := List.mem_of_find?_eq_some hb
      have hbid : b.id = i := by simpa using List.find?_some hb
      have hbb : b' = b :=
        List.inj_on_of_nodup_map hnodup hb'db hbmem (by rw [hb'i, hbid])
      rw [← hbb, hb'open]
      simp
    | i :: j :: rest, _, _ =>
      unfold BillsAdmin.changelist_of_ids
      rw [if_neg (show ¬((i :: j :: rest) : List Int).length = 1 by
        simp only [List.length_cons]; omega)]
      refine ⟨_, _, rfl, ?_⟩
      rintro ⟨b, hbdb, hbid, hbopen⟩
      have hany : db.any
          (fun x => (i :: j :: rest).contains x.id && !x.is_open) = true :=
        List.any_eq_true.mpr ⟨b, hbdb, by simp [List.contains, hbid, hbopen]⟩
      rw [if_pos hany]
      simp
  · have hempty : ids.isEmpty = false := by simp [List.isEmpty_iff, hne]
    simp [BillsAdmin.manager_get_queryset, hempty]

/-- C8 amended witness: a two-bill selection, one bill closed. -/
theorem C8_amended_witness :
    BillsAdmin.parse_ids "1,2" = some [1, 2] ∧
    BillsAdmin.changelist_view [⟨1, "0001", true⟩, ⟨2, "0002", false⟩] none =
      BillsAdmin.ViewResponse.redirectBack "No bills selected." ∧
    BillsAdmin.manager_get_queryset [1, 2] [⟨1⟩, ⟨3⟩] = [⟨1⟩] := by
  have h := C8_amended [⟨1, "0001", true⟩, ⟨2, "0002", false⟩] [⟨1⟩, ⟨3⟩]
    "1,2" [1, 2] (by decide) (by decide) (by decide) (by decide)
  exact ⟨by decide, h.1, h.2.2.trans (by decide)⟩

/-- C10: id parsing of the bulk line manager is total exactly on well-formed
input — a value whose comma-separated components are all (nonempty) decimal
digit runs parses to the list of their decimal values; a value with a
non-integer component — one containing a visible ASCII character that can
appear in no string `int()` accepts — makes integer conversion raise, so the
view propagates an unhandled error; and the friendly "No bills selected."
notice is produced only when the `ids` parameter is missing. -/
theorem C10_id_parsing (db : List BillsAdmin.Bill) (s s' p' : String)
    (c : Char)
    (hall : ∀ p ∈ PyStr.split ',' s, PyStr.isDigits p.toList = true)
    (hp' : p' ∈ PyStr.split ',' s') (hc : c ∈ p'.toList)
    (hbad : PyStr.badIntChar c = true) :
    BillsAdmin.parse_ids s =
      some ((PyStr.split ',' s).map
        (fun p => ((PyStr.digitsVal p.toList : Nat) : Int))) ∧
    BillsAdmin.changelist_view db (some s') = BillsAdmin.ViewResponse.raise ∧
    (∀ (ids_param : Option String) (m : String),
      BillsAdmin.changelist_view db ids_param =
        BillsAdmin.ViewResponse.redirectBack m → ids_param = none) := by
  refine ⟨?_, ?_, ?_⟩
  · exact PyStr.mapM_eq_some_map PyStr.pyInt _ (PyStr.split ',' s)
      (fun p hp => PyStr.pyInt_of_digits p (hall p hp))
  · have hbadp : PyStr.pyInt p' = none :=
      PyStr.pyInt_eq_none_of_badChar p' c hc hbad
    have hnone : BillsAdmin.parse_ids s' = none :=
      PyStr.mapM_eq_none PyStr.pyInt (PyStr.split ',' s') p' hp' hbadp
    simp only [BillsAdmin.changelist_view, hnone]
  · intro ids_param m h
    cases ids_param with
    | none => rfl
    | some s'' =>
      exfalso
      simp only [BillsAdmin.changelist_view] at h
      cases hp : BillsAdmin.parse_ids s'' with
      | none =>
        rw [hp] at h
        simp at h
      | some ids =>
        rw [hp] at h
        simp only at h
        unfold BillsAdmin.changelist_of_ids at h
        split at h
        · cases hb : BillsAdmin.bill_get db (ids.headD 0) with
          | none => rw [hb] at h; simp at h
          | some b => rw [hb] at h; simp at h
        · simp at h

/-- C10 witness: a well-formed two-id value parses to its values; a value
with the non-integer component "x" makes the view raise. -/
theorem C10_witness :
    (∀ p ∈ PyStr.split ',' "10,2", PyStr.isDigits p.toList = true) ∧
    ("x" ∈ PyStr.split ',' "1,x") ∧
    ('x' ∈ "x".toList ∧ PyStr.badIntChar 'x' = true) ∧
    BillsAdmin.parse_ids "10,2" = some [10, 2] ∧
    BillsAdmin.changelist_view [] (some "1,x") =
      BillsAdmin.ViewResponse.raise := by
  have h := C10_id_parsing [] "10,2" "1,x" "x" 'x' (by decide) (by decide)
    (by decide) (by decide)
  exact ⟨by decide, by decide, ⟨by decide, by decide⟩,
    h.1.trans (by decide), h.2.1⟩
